import Mathlib

/-!
Formal model of the memflow memory-introspection framework's core algorithms:
the AArch64 DTB page-table heuristic, the Windows process-list walk, the
x86-PAE MMU layout descriptor, process-architecture detection, export lookup,
and the FFI name-copy routine.  Machine integers are modelled as `Nat` with
explicit wrapping (`% 2 ^ 64`) where the source relies on `u64` arithmetic;
fallible reads are `Option`; a Rust panic is modelled as `none`.
-/

/-! ## Word arithmetic helpers (u64 semantics of `Address`) -/

/-- The size of the 64-bit address space (`2 ^ 64`); `Address` arithmetic
wraps modulo this. -/
def U64 : Nat := 18446744073709551616

/-- Wrapping 64-bit addition, as performed by `Address + Length`. -/
def wadd (a b : Nat) : Nat := (a + b) % U64

/-- Wrapping 64-bit subtraction, as performed by `Address - Length`. -/
def wsub (a b : Nat) : Nat := (a + (U64 - b % U64)) % U64

/-! ## AArch64 DTB heuristic
`src/memflow-win32/src/kernel/start_block/aarch64.rs`, `find_pt`. -/

/-- Little-endian decoding of a byte list, as `u64::from_le_bytes` does for
8-byte chunks. -/
def u64_le (bs : List Nat) : Nat := bs.foldr (fun b acc => b + 256 * acc) 0

/-- The 8-byte little-endian entries of the second half of a page:
`mem[0x800..].chunks(8).map(u64::from_le_bytes)`. -/
def pageEntries (mem : List Nat) : List Nat :=
  ((mem.drop 0x800).toChunks 8).map u64_le

/-- `find_pt` from `aarch64.rs`: accept the page at physical address `addr`
as a DTB candidate.  `mem` is the 4KB page contents. -/
def find_pt (addr : Nat) (mem : List Nat) : Option Nat :=
  let max_mem : Nat := 512 * 1024 * 1024 * 1024
  let pte := u64_le (mem.take 8)
  if pte &&& 0xfff ≠ 0xf03 ∨ pte &&& 0xfffffffff000 > max_mem then
    none
  else
    match (pageEntries mem).find? (fun a => (a ^^^ 0xf03) &&& ((2 ^ 64 - 1) >>> 12) == addr) with
    | none => none
    | some _ =>
      match ((pageEntries mem).filter (fun a => a &&& 0xfff == 0x703)).get? 5 with
      | none => none
      | some _ => some addr

/-! ## Windows process-list walk
`src/memflow-win32/src/win32/kernel.rs`, `process_address_list_callback`. -/

/-- `MAX_ITER_COUNT` from `kernel.rs`. -/
def MAX_ITER_COUNT : Nat := 65536

/-- The loop body of `process_address_list_callback`, with the remaining
iteration budget explicit.  `mem` is the pointer-read primitive
(`virt_read_addr_arch`; `none` = read error, propagated by `?`), `cb` the
opaque callback.  Returns the eprocess addresses passed to the callback and
whether the function returns `Ok` (`false` = a read failed). -/
def walkProcessList (mem : Nat → Option Nat) (cb : Nat → Bool)
    (listStart blinkOff eprocLink : Nat) : Nat → Nat → List Nat × Bool
  | 0, _ => ([], true)
  | fuel + 1, listEntry =>
    match mem listEntry with
    | none => ([], false)
    | some flink =>
      match mem (wadd listEntry blinkOff) with
      | none => ([], false)
      | some blink =>
        if flink = 0 ∨ blink = 0 ∨ flink = listStart ∨ flink = listEntry then
          ([], true)
        else
          let e := wsub listEntry eprocLink
          if cb e then
            let r := walkProcessList mem cb listStart blinkOff eprocLink fuel flink
            (e :: r.1, r.2)
          else
            ([e], true)

/-- `process_address_list_callback`: start the walk at
`list_start = eprocess_base + eproc_link` with the full iteration budget. -/
def process_address_list_callback (mem : Nat → Option Nat) (cb : Nat → Bool)
    (eprocessBase eprocLink blinkOff : Nat) : List Nat × Bool :=
  walkProcessList mem cb (wadd eprocessBase eprocLink) blinkOff eprocLink
    MAX_ITER_COUNT (wadd eprocessBase eprocLink)

/-! ## Win32Kernel construction: system process DTB
`src/memflow-win32/src/win32/kernel.rs`, `Win32Kernel::new`. -/

/-- Modelled from the spec: `Address::as_page_aligned(4096)` and
`Address::non_null` live in `memflow::types` which is not under `src/`;
§4.7 states the read value is used when it "is page-aligned, and non-zero".
Returns `some` of the value exactly when both hold. -/
def as_page_aligned_non_null (a : Nat) : Option Nat :=
  if a % 4096 = 0 ∧ a ≠ 0 then some a else none

/-- The `sysproc_dtb` selection in `Win32Kernel::new`: `readResult` is the
outcome of `virt_read_addr_arch` at `eprocess_base + kproc_dtb` through the
winload DTB (`none` = read error); fall back to `kernel_info.dtb` unless the
check passes. -/
def new_sysproc_dtb (readResult : Option Nat) (kernelDtb : Nat) : Nat :=
  match readResult.map as_page_aligned_non_null with
  | some (some dtb) => dtb
  | _ => kernelDtb

/-! ## MMU layout descriptor
`src/flow-core/src/architecture/x86_pae.rs`. -/

/-- `ArchMMUSpec` record (field layout as constructed in `x86_pae.rs`). -/
structure ArchMMUSpec where
  virtual_address_splits : List Nat
  valid_final_page_steps : List Nat
  address_space_bits : Nat
  pte_size : Nat
  present_bit : Nat
  writeable_bit : Nat
  nx_bit : Nat
  large_page_bit : Nat
deriving DecidableEq

/-- `x86_pae::get_mmu_spec` from `x86_pae.rs`. -/
def x86_pae_get_mmu_spec : ArchMMUSpec where
  virtual_address_splits := [2, 9, 9, 12]
  valid_final_page_steps := [2, 3]
  address_space_bits := 36
  pte_size := 8
  present_bit := 0
  writeable_bit := 1
  nx_bit := 63
  large_page_bit := 7

/-- Fuel-driven floor binary logarithm (structural so the kernel can
evaluate it); agrees with `usize::log2`-style exponents for powers of two. -/
def log2aux : Nat → Nat → Nat
  | 0, _ => 0
  | fuel + 1, n => if 2 ≤ n then log2aux fuel (n / 2) + 1 else 0

/-- Floor binary logarithm. -/
def log2floor (n : Nat) : Nat := log2aux n n

/-- Modelled from the spec: `make_bit_mask(lo, hi)` of the masks module of
`mmu_spec.rs` (not under `src/`, but referenced by the `x86_pae.rs` tests):
the value with exactly bits `lo..=hi` set. -/
def make_bit_mask (lo hi : Nat) : Nat := 2 ^ (hi + 1) - 2 ^ lo

/-- `pt_leaf_size(l)` per §4.2: `pte_size << splits[l]`, the byte size of one
page-table page at level `l`. -/
def pt_leaf_size (s : ArchMMUSpec) (l : Nat) : Nat :=
  s.pte_size <<< s.virtual_address_splits.getD l 0

/-- Modelled from the spec: `pte_addr_mask(pte, l)` of `mmu_spec.rs` (not
under `src/`) per §4.2: mask out flag bits below the page-table alignment
(`pt_leaf_size`) and zero bits above `address_space_bits`. -/
def pte_addr_mask (s : ArchMMUSpec) (pte : Nat) (l : Nat) : Nat :=
  pte &&& make_bit_mask (log2floor (pt_leaf_size s l)) (s.address_space_bits - 1)

/-! ## Process architecture detection
`src/memflow-win32/src/win32/kernel.rs`, `process_info_base_by_address`. -/

/-- `ArchitectureIdent` variants carried by `ProcessInfo`. -/
inductive ArchitectureIdent where
  | X86 (bits : Nat) (wow64 : Bool)
  | AArch64
deriving DecidableEq

/-- `ArchitectureObj::from(ident).bits()`: pointer width of the architecture. -/
def archBits : ArchitectureIdent → Nat
  | .X86 b _ => b
  | .AArch64 => 64

/-- The wow64 pointer read in `process_info_base_by_address`: `Address::null()`
when `offsets.eproc_wow64() == 0`, otherwise the pointer read at
`address + eproc_wow64` (`none` = read error, propagated by `?`). -/
def wow64Read (eprocWow64 : Nat) (readPtr : Nat → Option Nat) (address : Nat) : Option Nat :=
  if eprocWow64 = 0 then some 0 else readPtr (wadd address eprocWow64)

/-- The `proc_arch` match in `process_info_base_by_address`: `none` models
`Err(Error::InvalidArchitecture)`. -/
def procArchOf (sysArch : ArchitectureIdent) (wow64 : Nat) : Option ArchitectureIdent :=
  if archBits sysArch = 64 then
    some (if wow64 = 0 then sysArch else .X86 32 true)
  else if archBits sysArch = 32 then
    some sysArch
  else
    none

/-! ## Export lookup
`src/memflow/src/os/process.rs`, `module_export_by_name`. -/

/-- Error kinds of the not-found family (spec §7 taxonomy; the error enum
itself is in `memflow::error`, outside `src/`). -/
inductive ErrorKind where
  | ProcessNotFound
  | ModuleNotFound
  | ImportNotFound
  | ExportNotFound
deriving DecidableEq

/-- An entry produced by `module_export_list_callback`. -/
structure ExportInfo where
  name : String
  offset : Nat
deriving DecidableEq

/-- `module_export_by_name` over a successfully enumerated export list:
`ret` starts as `Err(ErrorKind::ImportNotFound)` (sic, in the source) and the
callback overwrites it with the first name match, stopping the enumeration. -/
def module_export_by_name : List ExportInfo → String → Except ErrorKind ExportInfo
  | [], _ => .error .ImportNotFound
  | e :: rest, name => if e.name = name then .ok e else module_export_by_name rest name

/-! ## FFI name copy
`src/memflow-core-ffi/src/process.rs`, `os_process_info_name`. -/

/-- `os_process_info_name`: copy the process name into a caller buffer of
capacity `max_len`, NUL-terminating.  The source computes
`len = min(max_len, name.len())` and then evaluates `out_bytes[..(len - 1)]`
and `out_bytes.iter_mut().last().unwrap()`; when `len = 0` the subtraction
underflows and the slice index / `unwrap` panic — modelled as `none`.
Otherwise returns the bytes written and the returned length. -/
def os_process_info_name (name : List Nat) (max_len : Nat) : Option (List Nat × Nat) :=
  let len := min max_len name.length
  if len = 0 then
    none
  else
    some (name.take (len - 1) ++ [0], len)

/-! ## Theorems -/

/-- C5 counterexample: the x86-PAE spec as constructed violates the claimed
invariant: `valid_final_page_steps` contains `3`, which is not strictly less
than `len(splits) - 1 = 3`. -/
theorem x86_pae_violates_strict_step_bound :
    ¬ (x86_pae_get_mmu_spec.virtual_address_splits.sum ∈ ([32, 48, 64] : List Nat) ∧
       x86_pae_get_mmu_spec.pte_size ∈ ([4, 8] : List Nat) ∧
       ∀ s ∈ x86_pae_get_mmu_spec.valid_final_page_steps,
         s < x86_pae_get_mmu_spec.virtual_address_splits.length - 1) := by
  decide

/-- C5 (amended): the x86-PAE `MmuSpec` satisfies: the splits sum to one of
32/48/64, the PTE size is 4 or 8, and every valid final page step is at most
`len(splits) - 1` (the last entry is the ordinary final level). -/
theorem x86_pae_mmu_spec_invariants :
    x86_pae_get_mmu_spec.virtual_address_splits.sum ∈ ([32, 48, 64] : List Nat) ∧
    x86_pae_get_mmu_spec.pte_size ∈ ([4, 8] : List Nat) ∧
    ∀ s ∈ x86_pae_get_mmu_spec.valid_final_page_steps,
      s ≤ x86_pae_get_mmu_spec.virtual_address_splits.length - 1 := by
  decide

/-- C8: for the x86-PAE spec and a PTE with all 64 bits set, `pte_addr_mask`
per the §4.2 definition yields exactly bits 5..35 at level 0 and exactly bits
12..35 at levels 1 and 2 (`0xfffffffe0` and `0xffffff000`). -/
theorem x86_pae_pte_bitmasks :
    pte_addr_mask x86_pae_get_mmu_spec (2 ^ 64 - 1) 0 = 0xfffffffe0 ∧
    pte_addr_mask x86_pae_get_mmu_spec (2 ^ 64 - 1) 1 = 0xffffff000 ∧
    pte_addr_mask x86_pae_get_mmu_spec (2 ^ 64 - 1) 2 = 0xffffff000 := by
  decide

/-- C9: `module_export_by_name` on a module none of whose exports carry the
requested name returns `ImportNotFound`, not the `ExportNotFound` the spec
prescribes for the export lookup (copy-paste slip in the source). -/
theorem module_export_by_name_wrong_error :
    module_export_by_name [] "NtBuildNumber" = .error .ImportNotFound ∧
    (Except.error .ImportNotFound : Except ErrorKind ExportInfo) ≠
      .error .ExportNotFound := by
  exact ⟨rfl, by simp⟩

/-- C10: `os_process_info_name` panics (modelled as `none`) whenever
`min(max_len, name.len()) = 0`: with `max_len = 0`, and with an empty name —
the `len - 1` subtraction underflows and the slice index / `unwrap` panic,
contradicting the claimed safe termination. -/
theorem os_process_info_name_panics :
    os_process_info_name [0x68, 0x69] 0 = none ∧
    os_process_info_name [] 16 = none ∧
    os_process_info_name [] 0 = none := by
  exact ⟨rfl, rfl, rfl⟩

/-- C4: during `Win32Kernel::new`, the value read at
`eprocess_base + kproc_dtb` through the winload DTB becomes `sysproc_dtb`
exactly when the read succeeded and the value is page-aligned and non-zero;
in every other case `sysproc_dtb` is `kernel_info.dtb`. -/
theorem new_sysproc_dtb_spec (readResult : Option Nat) (kernelDtb : Nat) :
    (∀ v, readResult = some v → v % 4096 = 0 → v ≠ 0 →
      new_sysproc_dtb readResult kernelDtb = v) ∧
    ((∀ v, readResult = some v → ¬(v % 4096 = 0 ∧ v ≠ 0)) →
      new_sysproc_dtb readResult kernelDtb = kernelDtb) := by
  constructor
  · intro v hv ha hz
    subst hv
    simp [new_sysproc_dtb, as_page_aligned_non_null, ha, hz]
  · intro h
    cases readResult with
    | none => rfl
    | some v =>
      have hv := h v rfl
      simp [new_sysproc_dtb, as_page_aligned_non_null, hv]

/-- C4 witness: a successful page-aligned non-zero read (`0x2000`) is adopted,
and a misaligned read (`0x2001`) falls back to the kernel DTB (`0x1a000`). -/
theorem new_sysproc_dtb_spec_witness :
    new_sysproc_dtb (some 0x2000) 0x1a000 = 0x2000 ∧
    new_sysproc_dtb (some 0x2001) 0x1a000 = 0x1a000 := by
  constructor
  · exact (new_sysproc_dtb_spec (some 0x2000) 0x1a000).1 0x2000 rfl (by decide) (by decide)
  · exact (new_sysproc_dtb_spec (some 0x2001) 0x1a000).2
      (by intro v hv; injection hv with hv; subst hv; decide)

/-- C7: in `process_info_base_by_address`, the wow64 pointer is null when
`eproc_wow64 = 0` and otherwise is the pointer read at
`address + eproc_wow64`; given the read value, `proc_arch` is
`X86(32, wow64 = true)` exactly when the system architecture is 64-bit and
the pointer is non-null, and in every other 32- or 64-bit case `proc_arch`
equals `sys_arch`. -/
theorem proc_arch_classification (sysArch : ArchitectureIdent) (eprocWow64 : Nat)
    (readPtr : Nat → Option Nat) (address : Nat)
    (hs : sysArch ≠ .X86 32 true)
    (hbits : archBits sysArch = 32 ∨ archBits sysArch = 64) :
    (eprocWow64 = 0 → wow64Read eprocWow64 readPtr address = some 0) ∧
    (eprocWow64 ≠ 0 →
      wow64Read eprocWow64 readPtr address = readPtr (wadd address eprocWow64)) ∧
    (∀ w, wow64Read eprocWow64 readPtr address = some w →
      ((procArchOf sysArch w = some (.X86 32 true) ↔ archBits sysArch = 64 ∧ w ≠ 0) ∧
       (¬(archBits sysArch = 64 ∧ w ≠ 0) → procArchOf sysArch w = some sysArch))) := by
  refine ⟨fun h0 => by simp [wow64Read, h0], fun h0 => by simp [wow64Read, h0], ?_⟩
  intro w _
  by_cases h64 : archBits sysArch = 64
  · by_cases hw : w = 0
    · subst hw
      constructor
      · constructor
        · intro h
          simp only [procArchOf, if_pos h64, if_pos rfl] at h
          injection h with h
          exact absurd h hs
        · rintro ⟨-, h⟩
          exact absurd rfl h
      · intro _
        simp [procArchOf, h64]
    · constructor
      · simp [procArchOf, h64, hw]
      · intro hcon
        exact absurd ⟨h64, hw⟩ hcon
  · have h32 : archBits sysArch = 32 := by
      rcases hbits with h | h
      · exact h
      · exact absurd h h64
    constructor
    · constructor
      · intro h
        simp only [procArchOf, if_neg h64, if_pos h32] at h
        injection h with h
        exact absurd h hs
      · rintro ⟨h, -⟩
        exact absurd h h64
    · intro _
      simp [procArchOf, if_neg h64, if_pos h32]

/-- C7 witness: on a 64-bit system (`X86(64, false)`) with
`eproc_wow64 = 0x250` and a read returning the non-null pointer `0x7ffe0000`,
the wow64 read goes through memory and `proc_arch` is `X86(32, true)`. -/
theorem proc_arch_classification_witness :
    wow64Read 0x250 (fun _ => some 0x7ffe0000) 0x11000 = some 0x7ffe0000 ∧
    procArchOf (.X86 64 false) 0x7ffe0000 = some (.X86 32 true) := by
  have h := proc_arch_classification (.X86 64 false) 0x250
    (fun _ => some 0x7ffe0000) 0x11000 (by simp) (Or.inr rfl)
  exact ⟨h.2.1 (by decide),
    ((h.2.2 0x7ffe0000 (by simp [wow64Read])).1).mpr ⟨rfl, by decide⟩⟩

/-- C1: for a 4KB page `mem` claimed to be at physical address `addr`,
`find_pt` accepts `addr` (returns `some addr`) if and only if the first
8 bytes decode to a PTE with low 12 bits `0xf03` whose masked bits 12..47
are at most 512 GB, some entry of `mem[0x800..]` is a self-reference
(`(entry ^ 0xf03) & (!0 >> 12) = addr`), and at least six entries of
`mem[0x800..]` have low 12 bits `0x703`. -/
theorem find_pt_accepts_iff (mem : List Nat) (addr : Nat) (_h4k : mem.length = 4096) :
    find_pt addr mem = some addr ↔
      (u64_le (mem.take 8) &&& 0xfff = 0xf03 ∧
       u64_le (mem.take 8) &&& 0xfffffffff000 ≤ 512 * 1024 * 1024 * 1024 ∧
       (∃ e ∈ pageEntries mem, (e ^^^ 0xf03) &&& ((2 ^ 64 - 1) >>> 12) = addr) ∧
       6 ≤ ((pageEntries mem).filter (fun a => a &&& 0xfff == 0x703)).length) := by
  constructor
  · intro h
    simp only [find_pt] at h
    split at h
    · exact absurd h (by simp)
    · rename_i hc
      rw [not_or] at hc
      obtain ⟨hc1, hc2⟩ := hc
      rw [not_not] at hc1
      rw [not_lt] at hc2
      split at h
      · exact absurd h (by simp)
      · rename_i v hfind
        split at h
        · exact absurd h (by simp)
        · rename_i w hget
          refine ⟨hc1, hc2, ?_, ?_⟩
          · refine ⟨v, List.mem_of_find?_eq_some hfind, ?_⟩
            have := List.find?_some hfind
            simpa using this
          · have h5 : 5 < ((pageEntries mem).filter (fun a => a &&& 0xfff == 0x703)).length := by
              rcases List.get?_eq_some.mp hget with ⟨h5, -⟩
              exact h5
            omega
  · rintro ⟨h1, h2, ⟨e, he, hpe⟩, h6⟩
    simp only [find_pt]
    rw [if_neg (not_or.mpr ⟨not_not.mpr h1, not_lt.mpr h2⟩)]
    have hfind : ((pageEntries mem).find?
        (fun a => (a ^^^ 0xf03) &&& ((2 ^ 64 - 1) >>> 12) == addr)).isSome := by
      rw [List.find?_isSome]
      exact ⟨e, he, by simpa using hpe⟩
    obtain ⟨v, hv⟩ := Option.isSome_iff_exists.mp hfind
    rw [hv]
    have h5 : 5 < ((pageEntries mem).filter (fun a => a &&& 0xfff == 0x703)).length := by
      omega
    rw [List.get?_eq_get h5]

/-- The 4KB page of spec scenario 6: first PTE `0xf03 | (0x2000 << 12)`, a
self-reference for physical address `0x40000000` at offset `0x800`, and six
kernel entries with low 12 bits `0x703` behind it. -/
def dtbPage : List Nat :=
  [0x03, 0x0f, 0x00, 0x02, 0, 0, 0, 0] ++ List.replicate 2040 0 ++
  [0x03, 0x0f, 0x00, 0x40, 0, 0, 0, 0,
   0x03, 0x07, 0, 0, 0, 0, 0, 0,
   0x03, 0x07, 0, 0, 0, 0, 0, 0,
   0x03, 0x07, 0, 0, 0, 0, 0, 0,
   0x03, 0x07, 0, 0, 0, 0, 0, 0,
   0x03, 0x07, 0, 0, 0, 0, 0, 0,
   0x03, 0x07, 0, 0, 0, 0, 0, 0] ++
  List.replicate 1992 0

/-- C1 witness: `dtbPage` is a 4KB page, so `find_pt_accepts_iff`
characterises acceptance of it at physical address `0x40000000`. -/
theorem find_pt_accepts_iff_witness :
    dtbPage.length = 4096 ∧
    (find_pt 0x40000000 dtbPage = some (0x40000000 : Nat) ↔
      (u64_le (dtbPage.take 8) &&& 0xfff = 0xf03 ∧
       u64_le (dtbPage.take 8) &&& 0xfffffffff000 ≤ 512 * 1024 * 1024 * 1024 ∧
       (∃ e ∈ pageEntries dtbPage, (e ^^^ 0xf03) &&& ((2 ^ 64 - 1) >>> 12) = 0x40000000) ∧
       6 ≤ ((pageEntries dtbPage).filter (fun a => a &&& 0xfff == 0x703)).length)) :=
  ⟨by simp only [dtbPage, List.length_append, List.length_replicate, List.length_cons,
      List.length_nil],
   find_pt_accepts_iff dtbPage 0x40000000 (by
    simp only [dtbPage, List.length_append, List.length_replicate, List.length_cons,
      List.length_nil])⟩

/-- Target memory whose first ActiveProcessLinks flink (at `0x1000`) points to
itself; every other pointer read yields the harmless non-null value `1`. -/
def memSelfFlink : Nat → Option Nat :=
  fun a => if a = 0x1000 then some 0x1000 else some 1

/-- C2 counterexample: with the first flink patched to point to itself
(`eprocess_base = 0xff0`, `eproc_link = 16`, so `list_start = 0x1000`), the
walk does NOT invoke the callback exactly once — the sentinel fires before
the first emission, so the callback runs zero times. -/
theorem process_list_self_flink_not_one :
    ¬ (((process_address_list_callback memSelfFlink (fun _ => true) 0xff0 16 8).1.length = 1) ∧
       (process_address_list_callback memSelfFlink (fun _ => true) 0xff0 16 8).2 = true) := by
  decide

/-- C2 (amended): if the flink read at `list_start` points to `list_start`
itself (and the blink read succeeds), the sentinel fires before the callback:
the walk invokes the callback zero times and returns `Ok`. -/
theorem self_flink_emits_nothing (mem : Nat → Option Nat) (cb : Nat → Bool)
    (eprocessBase eprocLink blinkOff b : Nat)
    (hf : mem (wadd eprocessBase eprocLink) = some (wadd eprocessBase eprocLink))
    (hb : mem (wadd (wadd eprocessBase eprocLink) blinkOff) = some b) :
    process_address_list_callback mem cb eprocessBase eprocLink blinkOff = ([], true) := by
  unfold process_address_list_callback MAX_ITER_COUNT
  rw [show (65536 : Nat) = 65535 + 1 from rfl]
  simp [walkProcessList, hf, hb]

/-- C2 witness: the amended statement applied to the concrete self-flink
memory. -/
theorem self_flink_emits_nothing_witness :
    process_address_list_callback memSelfFlink (fun _ => true) 0xff0 16 8 = ([], true) :=
  self_flink_emits_nothing memSelfFlink (fun _ => true) 0xff0 16 8 1 (by decide) (by decide)

/-- Target memory forming an endless flink chain: every pointer read yields
the address plus 16, so no termination sentinel is ever reached. -/
def memEndlessChain : Nat → Option Nat :=
  fun a => some (a + 16)

/-- On the endless chain the walk performs exactly `fuel` iterations, emits
one address per iteration, and finishes with `Ok`. -/
theorem walkProcessList_endless_chain :
    ∀ fuel entry, 0x1000 ≤ entry →
      (walkProcessList memEndlessChain (fun _ => true) 0x1000 8 16 fuel entry).1.length = fuel ∧
      (walkProcessList memEndlessChain (fun _ => true) 0x1000 8 16 fuel entry).2 = true := by
  intro fuel
  induction fuel with
  | zero => intro entry _; exact ⟨rfl, rfl⟩
  | succ f ih =>
    intro entry he
    have hcond : ¬(entry + 16 = 0 ∨ wadd entry 8 + 16 = 0 ∨
        entry + 16 = 0x1000 ∨ entry + 16 = entry) := by
      simp only [wadd, U64]
      omega
    have ih' := ih (entry + 16) (by omega)
    simp only [walkProcessList, memEndlessChain]
    rw [if_neg hcond]
    simp only [if_true, List.length_cons]
    exact ⟨by rw [ih'.1], ih'.2⟩

/-- C3 counterexample: on the endless chain (no sentinel is ever reached:
all `MAX_ITER_COUNT` iterations run and emit) the walk returns `Ok`, not an
error — the truncation is silent. -/
theorem process_list_truncation_returns_ok :
    (process_address_list_callback memEndlessChain (fun _ => true) 0xff0 16 8).1.length =
      65536 ∧
    (process_address_list_callback memEndlessChain (fun _ => true) 0xff0 16 8).2 = true := by
  have hls : wadd 0xff0 16 = 0x1000 := by simp [wadd, U64]
  unfold process_address_list_callback MAX_ITER_COUNT
  rw [hls]
  exact walkProcessList_endless_chain 65536 0x1000 (by omega)

/-- C3 (amended): whenever every pointer read succeeds,
`process_address_list_callback` returns `Ok` — in particular when the
`MAX_ITER_COUNT` cutoff truncates the walk; the entries passed to the
callback before the cutoff are unaffected.  No `ListCorrupted` error is
reported. -/
theorem process_list_ok_of_total_reads (mem : Nat → Option Nat)
    (hm : ∀ a, (mem a).isSome) (cb : Nat → Bool)
    (eprocessBase eprocLink blinkOff : Nat) :
    (process_address_list_callback mem cb eprocessBase eprocLink blinkOff).2 = true := by
  suffices h : ∀ fuel entry,
      (walkProcessList mem cb (wadd eprocessBase eprocLink) blinkOff eprocLink
        fuel entry).2 = true from
    h MAX_ITER_COUNT (wadd eprocessBase eprocLink)
  intro fuel
  induction fuel with
  | zero => intro entry; rfl
  | succ f ih =>
    intro entry
    obtain ⟨flink, hf⟩ := Option.isSome_iff_exists.mp (hm entry)
    obtain ⟨blink, hb⟩ := Option.isSome_iff_exists.mp (hm (wadd entry blinkOff))
    simp only [walkProcessList, hf, hb]
    split
    · rfl
    · split
      · exact ih flink
      · rfl

/-- C3 witness: the amended statement applied to a concrete total memory. -/
theorem process_list_ok_of_total_reads_witness :
    (process_address_list_callback (fun _ => some 0) (fun _ => true) 0xff0 16 8).2 = true :=
  process_list_ok_of_total_reads (fun _ => some 0) (fun _ => rfl) (fun _ => true) 0xff0 16 8

/-- One successful non-sentinel iteration of the walk prepends the current
eprocess address and continues at the flink. -/
theorem walkProcessList_cons (mem : Nat → Option Nat) (cb : Nat → Bool)
    (ls off link fuel entry flink blink : Nat)
    (hf : mem entry = some flink) (hb : mem (wadd entry off) = some blink)
    (h0 : flink ≠ 0) (h1 : blink ≠ 0) (h2 : flink ≠ ls) (h3 : flink ≠ entry)
    (hcb : cb (wsub entry link) = true) :
    walkProcessList mem cb ls off link (fuel + 1) entry =
      (wsub entry link :: (walkProcessList mem cb ls off link fuel flink).1,
       (walkProcessList mem cb ls off link fuel flink).2) := by
  simp [walkProcessList, hf, hb, h0, h1, h2, h3, hcb]

/-- Target memory containing a flink cycle `0x2000 → 0x3000 → 0x2000` that
avoids the list head `0x1000`; all other reads yield the non-null value `1`. -/
def memInnerCycle : Nat → Option Nat :=
  fun a =>
    if a = 0x1000 then some 0x2000
    else if a = 0x2000 then some 0x3000
    else if a = 0x3000 then some 0x2000
    else some 1

/-- C6 counterexample: on the inner cycle the walk passes the eprocess
address `0x2000 - 16` to the callback more than once — the emitted list is
not duplicate-free, refuting at-most-once emission for arbitrary memory. -/
theorem process_list_can_repeat_address :
    ¬ (process_address_list_callback memInnerCycle (fun _ => true) 0xff0 16 8).1.Nodup := by
  have hls : wadd 0xff0 16 = 0x1000 := by simp [wadd, U64]
  unfold process_address_list_callback MAX_ITER_COUNT
  rw [hls]
  rw [show (65536 : Nat) = 65535 + 1 from rfl]
  rw [walkProcessList_cons memInnerCycle (fun _ => true) 0x1000 8 16 65535 0x1000 0x2000 1
    (by decide) (by decide) (by decide) (by decide) (by decide) (by decide) rfl]
  rw [show (65535 : Nat) = 65534 + 1 from rfl]
  rw [walkProcessList_cons memInnerCycle (fun _ => true) 0x1000 8 16 65534 0x2000 0x3000 1
    (by decide) (by decide) (by decide) (by decide) (by decide) (by decide) rfl]
  rw [show (65534 : Nat) = 65533 + 1 from rfl]
  rw [walkProcessList_cons memInnerCycle (fun _ => true) 0x1000 8 16 65533 0x3000 0x2000 1
    (by decide) (by decide) (by decide) (by decide) (by decide) (by decide) rfl]
  rw [show (65533 : Nat) = 65532 + 1 from rfl]
  rw [walkProcessList_cons memInnerCycle (fun _ => true) 0x1000 8 16 65532 0x2000 0x3000 1
    (by decide) (by decide) (by decide) (by decide) (by decide) (by decide) rfl]
  intro h
  rcases List.nodup_cons.mp h with ⟨-, h⟩
  rcases List.nodup_cons.mp h with ⟨hb, -⟩
  exact hb (List.mem_cons.mpr (Or.inr (List.mem_cons.mpr (Or.inl rfl))))

/-- Wrapped addition lands below `2 ^ 64`. -/
theorem wadd_lt (a b : Nat) : wadd a b < U64 := by
  simp only [wadd, U64]
  omega

/-- Wrapped subtraction of a common offset is injective on 64-bit values. -/
theorem wsub_inj (a b c : Nat) (ha : a < U64) (hb : b < U64)
    (h : wsub a c = wsub b c) : a = b := by
  simp only [wsub, U64] at h ha hb
  omega

/-- The walk never re-enters the list head: starting anywhere other than
`ls`, the head's eprocess address is never emitted (the `flink = listStart`
sentinel stops the walk before the head could be revisited). -/
theorem head_not_in_tail_walk (mem : Nat → Option Nat)
    (hmem : ∀ a v, mem a = some v → v < U64) (cb : Nat → Bool)
    (ls off link : Nat) (hls : ls < U64) :
    ∀ fuel entry, entry < U64 → entry ≠ ls →
      wsub ls link ∉ (walkProcessList mem cb ls off link fuel entry).1 := by
  intro fuel
  induction fuel with
  | zero => intro entry _ _; simp [walkProcessList]
  | succ f ih =>
    intro entry hent hne
    have hne' : wsub entry link ≠ wsub ls link :=
      fun hh => hne (wsub_inj entry ls link hent hls hh)
    cases hf : mem entry with
    | none => simp [walkProcessList, hf]
    | some flink =>
      cases hb : mem (wadd entry off) with
      | none => simp [walkProcessList, hf, hb]
      | some blink =>
        simp only [walkProcessList, hf, hb]
        split
        · simp
        · rename_i hcond
          have hflink : flink ≠ ls := fun hh => hcond (Or.inr (Or.inr (Or.inl hh)))
          split
          · simp only [List.mem_cons, not_or]
            exact ⟨fun hh => hne' hh.symm,
              ih flink (hmem entry flink hf) hflink⟩
          · simp only [List.mem_singleton]
            exact fun hh => hne' hh.symm

/-- C6 (amended): a single run of `process_address_list_callback` passes the
head eprocess address (`list_start - eproc_link`, the System process) to the
callback at most once: the `flink = list_start` sentinel prevents revisiting
the head node.  (Interior nodes can repeat on corrupted rings, see the
counterexample.)  `mem` returns 64-bit values. -/
theorem process_list_head_emitted_at_most_once (mem : Nat → Option Nat)
    (hmem : ∀ a v, mem a = some v → v < U64) (cb : Nat → Bool)
    (eprocessBase eprocLink blinkOff : Nat) :
    ((process_address_list_callback mem cb eprocessBase eprocLink blinkOff).1.count
      (wsub (wadd eprocessBase eprocLink) eprocLink)) ≤ 1 := by
  unfold process_address_list_callback
  generalize hls0 : wadd eprocessBase eprocLink = ls
  have hls : ls < U64 := hls0 ▸ wadd_lt eprocessBase eprocLink
  generalize MAX_ITER_COUNT = fuel
  cases fuel with
  | zero => simp [walkProcessList]
  | succ f =>
    cases hf : mem ls with
    | none => simp [walkProcessList, hf]
    | some flink =>
      cases hb : mem (wadd ls blinkOff) with
      | none => simp [walkProcessList, hf, hb]
      | some blink =>
        simp only [walkProcessList, hf, hb]
        split
        · simp
        · rename_i hcond
          have hflink : flink ≠ ls := fun hh => hcond (Or.inr (Or.inr (Or.inl hh)))
          have hnot := head_not_in_tail_walk mem hmem cb ls blinkOff eprocLink hls f
            flink (hmem ls flink hf) hflink
          split
          · rw [List.count_cons]
            rw [List.count_eq_zero.mpr hnot]
            simp
          · simp [List.count_cons]

/-- C6 witness: the amended statement applied to a concrete total memory. -/
theorem process_list_head_emitted_at_most_once_witness :
    ((process_address_list_callback (fun _ => some 8) (fun _ => true) 0xff0 16 8).1.count
      (wsub (wadd 0xff0 16) 16)) ≤ 1 :=
  process_list_head_emitted_at_most_once (fun _ => some 8)
    (fun _ v hv => by injection hv with hv; subst hv; decide)
    (fun _ => true) 0xff0 16 8
